import Mathlib

set_option maxRecDepth 4000

/-!
Shallow embedding of the lox_rust core (src/chunk.rs, src/scanner.rs,
src/compile.rs, src/object.rs, src/value.rs, src/vm.rs) and proofs about the
frozen claims.

Modelling conventions:
* Rust f64 is modelled as the rational numbers; every numeric value exercised
  by the claims is a small integer, on which f64 arithmetic and its Display
  form are exact.
* A source string is a list of characters; the sources in question are ASCII,
  so byte indices and char indices coincide.  The Rust byte-slice idiom
  (source[a..b], which panics when out of bounds) is modelled by byteSlice
  returning Except, while the total chars().skip(a).take(b) idiom is modelled
  by List.drop / List.take.
* Rust panics (unwrap on None, out-of-bounds Vec indexing, slice overruns)
  are modelled as Except.error; ordinary returns are Except.ok.
* std HashMap is modelled as an association list with insert-overwrite
  semantics; lookup order is irrelevant because keys are inserted at the
  front after erasing duplicates.
* The operand stack (a Rust Vec pushed and popped at the back) is modelled as
  a list whose HEAD is the TOP of the stack; Vec index i corresponds to list
  position (length - 1 - i).
* Effects: bytes written to standard output are accumulated in the output
  field of the VM state; compile-time diagnostics written to standard error
  are accumulated as their message texts in the stderrLog field of the
  compile state.
* Loops and mutual recursion of the compiler are given explicit fuel; the
  theorems below only ever evaluate them at concrete inputs with ample fuel.
-/

namespace LoxRust

/-- Alias for the Lean string type, used where a constructor named String is
in scope and would otherwise shadow it. -/
abbrev Str : Type := String

/-- Decidable equality on Except, so that concrete runs of the model,
including panicking ones, can be checked by evaluation. -/
instance exceptDecEq {ε α : Type} [DecidableEq ε] [DecidableEq α] :
    DecidableEq (Except ε α)
  | .error a, .error b =>
    if h : a = b then .isTrue (by rw [h])
    else .isFalse (by intro he; cases he; exact h rfl)
  | .error _, .ok _ => .isFalse (by intro he; cases he)
  | .ok _, .error _ => .isFalse (by intro he; cases he)
  | .ok a, .ok b =>
    if h : a = b then .isTrue (by rw [h])
    else .isFalse (by intro he; cases he; exact h rfl)

/-- Outcome of interpretation, vm.rs InterpretResult. -/
inductive InterpretResult
  | Ok
  | CompileError
  | RuntimeError
deriving Repr, DecidableEq

/-- Runtime values, value.rs Value; f64 is modelled as the rationals. -/
inductive Value
  | Bool (b : Bool)
  | Nil
  | Number (n : ℚ)
  | Obj (id : Nat)
deriving Repr, DecidableEq

/-- Opcodes, chunk.rs Op. -/
inductive Op
  | Constant (k : Nat)
  | Nil
  | True
  | False
  | Pop
  | GetLocal (s : Nat)
  | SetLocal (s : Nat)
  | GetGlobal (k : Nat)
  | DefineGlobal (k : Nat)
  | SetGlobal (k : Nat)
  | Equal
  | Greater
  | Less
  | Add
  | Subtract
  | Multiply
  | Divide
  | Not
  | Negate
  | Print
  | JumpIfFalse (d : Nat)
  | Jump (d : Nat)
  | Loop (d : Nat)
  | Return
deriving Repr, DecidableEq

/-- Source line annotation, chunk.rs Line. -/
structure Line where
  value : Nat
deriving Repr, DecidableEq

/-- Constructor helper, chunk.rs fn line. -/
def line (value : Nat) : Line := { value := value }

/-- Instruction stream plus constant pool, chunk.rs Chunk. -/
structure Chunk where
  code : List (Op × Line)
  constants : List Value
deriving Repr, DecidableEq

/-- Chunk::new. -/
def Chunk.new : Chunk := { code := [], constants := [] }

/-- Chunk::add_constant: append and return the new index. -/
def Chunk.add_constant (c : Chunk) (val : Value) : Nat × Chunk :=
  let constants := c.constants ++ [val]
  (constants.length - 1, { c with constants := constants })

/-- Function object, object.rs ObjFunction. -/
structure ObjFunction where
  arity : Nat
  chunk : Chunk
  name : String
deriving Repr, DecidableEq

/-- Heap payloads, object.rs HeapData. -/
inductive HeapData
  | String (s : String)
  | ObjFunction (f : ObjFunction)
deriving Repr, DecidableEq

/-- HeapData::as_string; the panicking arm of the source is unreachable for
this two-variant enum, so the function is total here. -/
def HeapData.as_string : HeapData → Str
  | .String s => s
  | .ObjFunction f => f.name

/-- Heap entry with mark bit, object.rs HeapVal. -/
structure HeapVal where
  marked : Bool
  data : HeapData
deriving Repr, DecidableEq

/-- Insert-with-overwrite for the association lists standing in for HashMap. -/
def mapInsert {κ ν : Type} [DecidableEq κ] (l : List (κ × ν)) (k : κ) (v : ν) :
    List (κ × ν) :=
  (k, v) :: l.filter (fun kv => decide (kv.1 ≠ k))

/-- Key removal, HashMap::remove. -/
def mapRemove {κ ν : Type} [DecidableEq κ] (l : List (κ × ν)) (k : κ) :
    List (κ × ν) :=
  l.filter (fun kv => decide (kv.1 ≠ k))

/-- Lookup, HashMap::get. -/
def mapGet {κ ν : Type} [DecidableEq κ] (l : List (κ × ν)) (k : κ) : Option ν :=
  match l with
  | [] => none
  | kv :: rest => if kv.1 = k then some kv.2 else mapGet rest k

/-- Handle arena, object.rs Heap. -/
structure Heap where
  bytes_allocated : Nat
  next_gc : Nat
  id_counter : Nat
  values : List (Nat × HeapVal)
deriving Repr, DecidableEq

/-- Heap::new. -/
def Heap.new : Heap :=
  { bytes_allocated := 0, next_gc := 1024 * 1024, id_counter := 0, values := [] }

/-- Heap::allocate: issue a fresh handle. -/
def Heap.allocate (h : Heap) (data : HeapData) : Nat × Heap :=
  let id := h.id_counter
  (id, { h with id_counter := id + 1,
                values := mapInsert h.values id { marked := false, data := data } })

/-- Heap::free: remove the entry. -/
def Heap.free (h : Heap) (id : Nat) : Heap :=
  { h with values := mapRemove h.values id }

/-- Heap::get. -/
def Heap.get (h : Heap) (id : Nat) : Option HeapData :=
  (mapGet h.values id).map HeapVal.data

/-- Heap::mark. -/
def Heap.mark (h : Heap) (id : Nat) : Heap :=
  let setMark := fun (kv : Nat × HeapVal) =>
    if kv.1 = id then (kv.1, { kv.2 with marked := true }) else kv
  { h with values := h.values.map setMark }

/-- Token kinds, scanner.rs TokenType. -/
inductive TokenType
  | LeftParen
  | RightParen
  | LeftBrace
  | RightBrace
  | Comma
  | Dot
  | Minus
  | Plus
  | Semicolon
  | Slash
  | Star
  | Bang
  | BangEqual
  | Equal
  | EqualEqual
  | Greater
  | GreaterEqual
  | Less
  | LessEqual
  | Identifier
  | String
  | Number
  | And
  | Class
  | Else
  | False
  | For
  | Fun
  | If
  | Nil
  | Or
  | Print
  | Return
  | Super
  | This
  | True
  | Var
  | While
  | Error
  | EOF
deriving Repr, DecidableEq

/-- Tokens carry coordinates into the source, scanner.rs Token. -/
structure Token where
  token_type : TokenType
  start : Nat
  length : Nat
  line : Nat
deriving Repr, DecidableEq

/-- Scanner cursor, scanner.rs Scanner. -/
structure Scanner where
  start : Nat
  current : Nat
  line : Nat
deriving Repr, DecidableEq

/-- Scanner::new. -/
def Scanner.new : Scanner := { start := 0, current := 0, line := 1 }

/-- Rust byte slicing source[a..b]: panics when the range overruns. -/
def byteSlice (source : List Char) (a b : Nat) : Except String (List Char) :=
  if a ≤ b ∧ b ≤ source.length then .ok ((source.drop a).take (b - a))
  else .error "byte index out of bounds in string slice"

/-- Scanner::is_at_end. -/
def Scanner.is_at_end (s : Scanner) (source : List Char) : Bool :=
  decide (source.length ≤ s.current)

/-- Scanner::advance: bump the cursor, unwrap the char just passed. -/
def Scanner.advance (s : Scanner) (source : List Char) :
    Except String (Char × Scanner) :=
  let s := { s with current := s.current + 1 }
  match source.get? (s.current - 1) with
  | some c => .ok (c, s)
  | none => .error "unwrap on None in Scanner advance"

/-- Scanner::peek: NUL at end of input, otherwise the current char. -/
def Scanner.peek (s : Scanner) (source : List Char) : Except String Char :=
  if s.is_at_end source then .ok '\x00'
  else
    match source.get? s.current with
    | some c => .ok c
    | none => .error "unwrap on None in Scanner peek"

/-- Scanner::peek_next; note the guard only checks is_at_end, so indexing
current + 1 can still unwrap None and panic. -/
def Scanner.peek_next (s : Scanner) (source : List Char) : Except String Char :=
  if s.is_at_end source then .ok '\x00'
  else
    match source.get? (s.current + 1) with
    | some c => .ok c
    | none => .error "unwrap on None in Scanner peek_next"

/-- Scanner::match_next. -/
def Scanner.match_next (s : Scanner) (source : List Char) (expected : Char) :
    Except String (Bool × Scanner) :=
  if s.is_at_end source then .ok (false, s)
  else
    match source.get? s.current with
    | none => .error "unwrap on None in Scanner match_next"
    | some c =>
      if c ≠ expected then .ok (false, s)
      else .ok (true, { s with current := s.current + 1 })

/-- Inner loop of the line-comment branch of skip_whitespace. -/
def Scanner.skipComment (s : Scanner) (source : List Char) :
    Nat → Except String Scanner
  | 0 => .error "fuel exhausted in skipComment"
  | fuel + 1 => do
    let c ← s.peek source
    if c ≠ '\n' ∧ ¬ (s.is_at_end source = true) then do
      let (_, s) ← s.advance source
      s.skipComment source fuel
    else .ok s

/-- Scanner::skip_whitespace. -/
def Scanner.skip_whitespace (s : Scanner) (source : List Char) :
    Nat → Except String Scanner
  | 0 => .error "fuel exhausted in skip_whitespace"
  | fuel + 1 => do
    let c ← s.peek source
    match c with
    | ' ' | '\r' | '\t' => do
      let (_, s) ← s.advance source
      s.skip_whitespace source fuel
    | '\n' => do
      let s := { s with line := s.line + 1 }
      let (_, s) ← s.advance source
      s.skip_whitespace source fuel
    | '/' => do
      let n ← s.peek_next source
      if n = '/' then do
        let s ← s.skipComment source fuel
        s.skip_whitespace source fuel
      else .ok s
    | _ => .ok s

/-- Scanner::make_token. -/
def Scanner.make_token (s : Scanner) (token_type : TokenType) : Token :=
  { token_type := token_type, start := s.start,
    length := s.current - s.start, line := s.line }

/-- Scanner::error_token; note the source stores start 0 and the message
length, not the coordinates of the offending lexeme. -/
def Scanner.error_token (s : Scanner) (message : String) : Token :=
  { token_type := TokenType.Error, start := 0,
    length := message.length, line := s.line }

/-- Scanner::check_keyword: compares a byte slice of the source against the
tail of a keyword.  The slice source[start+s..start+s+len] is taken without a
bounds check, so it panics when the identifier sits too close to the end of
the source. -/
def Scanner.check_keyword (s : Scanner) (source : List Char) (start length : Nat)
    (rest : List Char) (token_type : TokenType) : Except String TokenType := do
  let some_chars ← byteSlice source (s.start + start) (s.start + start + length)
  if some_chars = rest then .ok token_type else .ok TokenType.Identifier

/-- Scanner::identifier_type: leading-character dispatch into check_keyword. -/
def Scanner.identifier_type (s : Scanner) (source : List Char) :
    Except String TokenType := do
  let c0 ← match source.get? s.start with
    | some c => Except.ok c
    | none => Except.error "unwrap on None in identifier_type"
  match c0 with
  | 'a' => s.check_keyword source 1 2 ['n', 'd'] TokenType.And
  | 'c' => s.check_keyword source 1 4 ['l', 'a', 's', 's'] TokenType.Class
  | 'e' => s.check_keyword source 1 3 ['l', 's', 'e'] TokenType.Else
  | 'f' => do
    let c1 ← match source.get? (s.start + 1) with
      | some c => Except.ok c
      | none => Except.error "unwrap on None in identifier_type"
    match c1 with
    | 'a' => s.check_keyword source 2 3 ['l', 's', 'e'] TokenType.False
    | 'o' => s.check_keyword source 2 1 ['r'] TokenType.For
    | 'u' => s.check_keyword source 2 1 ['n'] TokenType.Fun
    | _ => .ok TokenType.Identifier
  | 'i' => s.check_keyword source 1 1 ['f'] TokenType.If
  | 'n' => s.check_keyword source 1 2 ['i', 'l'] TokenType.Nil
  | 'o' => s.check_keyword source 1 1 ['r'] TokenType.Or
  | 'p' => s.check_keyword source 1 4 ['r', 'i', 'n', 't'] TokenType.Print
  | 'r' => s.check_keyword source 1 5 ['e', 't', 'u', 'r', 'n'] TokenType.Return
  | 's' => s.check_keyword source 1 4 ['u', 'p', 'e', 'r'] TokenType.Super
  | 't' => do
    let c1 ← match source.get? (s.start + 1) with
      | some c => Except.ok c
      | none => Except.error "unwrap on None in identifier_type"
    match c1 with
    | 'h' => s.check_keyword source 2 2 ['i', 's'] TokenType.This
    | 'r' => s.check_keyword source 2 2 ['u', 'e'] TokenType.True
    | _ => .ok TokenType.Identifier
  | 'v' => s.check_keyword source 1 2 ['a', 'r'] TokenType.Var
  | 'w' => s.check_keyword source 1 4 ['h', 'i', 'l', 'e'] TokenType.While
  | _ => .ok TokenType.Identifier

/-- Loop of Scanner::string_token: consume until closing quote or end. -/
def Scanner.stringLoop (s : Scanner) (source : List Char) :
    Nat → Except String Scanner
  | 0 => .error "fuel exhausted in stringLoop"
  | fuel + 1 => do
    let c ← s.peek source
    if c ≠ '"' ∧ ¬ (s.is_at_end source = true) then do
      let s := if c = '\n' then { s with line := s.line + 1 } else s
      let (_, s) ← s.advance source
      s.stringLoop source fuel
    else .ok s

/-- Scanner::string_token. -/
def Scanner.string_token (s : Scanner) (source : List Char) :
    Except String (Scanner × Token) := do
  let s ← s.stringLoop source (source.length + 2)
  if s.is_at_end source then .ok (s, s.error_token "Unterminated string.")
  else do
    let (_, s) ← s.advance source
    .ok (s, s.make_token TokenType.String)

/-- Digit-consuming loop of Scanner::number_token. -/
def Scanner.digitLoop (s : Scanner) (source : List Char) :
    Nat → Except String Scanner
  | 0 => .error "fuel exhausted in digitLoop"
  | fuel + 1 => do
    let c ← s.peek source
    if c.isDigit then do
      let (_, s) ← s.advance source
      s.digitLoop source fuel
    else .ok s

/-- Scanner::number_token; peek_next is only evaluated behind the
short-circuit when the current char is a dot. -/
def Scanner.number_token (s : Scanner) (source : List Char) :
    Except String (Scanner × Token) := do
  let s ← s.digitLoop source (source.length + 2)
  let c ← s.peek source
  if c = '.' then do
    let n ← s.peek_next source
    if n.isDigit then do
      let (_, s) ← s.advance source
      let s ← s.digitLoop source (source.length + 2)
      .ok (s, s.make_token TokenType.Number)
    else .ok (s, s.make_token TokenType.Number)
  else .ok (s, s.make_token TokenType.Number)

/-- Alphabetic identifier-start test of the scan_token match,
the ranges a..=z and A..=Z. -/
def isAsciiAlpha (c : Char) : Bool :=
  decide (('a' ≤ c ∧ c ≤ 'z') ∨ ('A' ≤ c ∧ c ≤ 'Z'))

/-- Identifier-extension loop of scan_token; Rust char::is_alphanumeric
agrees with Char.isAlphanum on ASCII sources. -/
def Scanner.identLoop (s : Scanner) (source : List Char) :
    Nat → Except String Scanner
  | 0 => .error "fuel exhausted in identLoop"
  | fuel + 1 => do
    let c ← s.peek source
    if c.isAlphanum then do
      let (_, s) ← s.advance source
      s.identLoop source fuel
    else .ok s

/-- Scanner::scan_token. -/
def Scanner.scan_token (s : Scanner) (source : List Char) :
    Except String (Scanner × Token) := do
  let s ← s.skip_whitespace source (source.length + 2)
  let s := { s with start := s.current }
  if s.is_at_end source then .ok (s, s.make_token TokenType.EOF)
  else do
    let (c, s) ← s.advance source
    match c with
    | '(' => .ok (s, s.make_token TokenType.LeftParen)
    | ')' => .ok (s, s.make_token TokenType.RightParen)
    | '{' => .ok (s, s.make_token TokenType.LeftBrace)
    | '}' => .ok (s, s.make_token TokenType.RightBrace)
    | ';' => .ok (s, s.make_token TokenType.Semicolon)
    | ',' => .ok (s, s.make_token TokenType.Comma)
    | '.' => .ok (s, s.make_token TokenType.Dot)
    | '-' => .ok (s, s.make_token TokenType.Minus)
    | '+' => .ok (s, s.make_token TokenType.Plus)
    | '/' => .ok (s, s.make_token TokenType.Slash)
    | '*' => .ok (s, s.make_token TokenType.Star)
    | '!' => do
      let (m, s) ← s.match_next source '='
      .ok (s, s.make_token (if m then TokenType.BangEqual else TokenType.Bang))
    | '=' => do
      let (m, s) ← s.match_next source '='
      .ok (s, s.make_token (if m then TokenType.EqualEqual else TokenType.Equal))
    | '<' => do
      let (m, s) ← s.match_next source '='
      .ok (s, s.make_token (if m then TokenType.LessEqual else TokenType.Less))
    | '>' => do
      let (m, s) ← s.match_next source '='
      .ok (s, s.make_token (if m then TokenType.GreaterEqual else TokenType.Greater))
    | '"' => s.string_token source
    | c =>
      if c.isDigit then s.number_token source
      else if isAsciiAlpha c then do
        let s ← s.identLoop source (source.length + 2)
        let tt ← s.identifier_type source
        .ok (s, s.make_token tt)
      else .ok (s, s.error_token "Unexpected character.")

/-- Precedence levels, compile.rs Precedence. -/
inductive Precedence
  | None
  | Assignment
  | Or
  | And
  | Equality
  | Comparison
  | Term
  | Factor
  | Unary
  | Call
  | Primary
deriving Repr, DecidableEq

/-- Discriminant of a precedence level; the Rust derive of PartialOrd
compares these discriminants. -/
def Precedence.toNat : Precedence → Nat
  | .None => 0
  | .Assignment => 1
  | .Or => 2
  | .And => 3
  | .Equality => 4
  | .Comparison => 5
  | .Term => 6
  | .Factor => 7
  | .Unary => 8
  | .Call => 9
  | .Primary => 10

/-- Precedence::increase. -/
def Precedence.increase : Precedence → Precedence
  | .None => .Assignment
  | .Assignment => .Or
  | .Or => .And
  | .And => .Equality
  | .Equality => .Comparison
  | .Comparison => .Term
  | .Term => .Factor
  | .Factor => .Unary
  | .Unary => .Call
  | .Call => .Primary
  | .Primary => .Primary

/-- Compile-time local slot record, compile.rs Local. -/
structure Local where
  token : Token
  depth : Int
deriving Repr, DecidableEq

/-- Scope tracker, compile.rs Compiler. -/
structure Compiler where
  locals : List Local
  scope_depth : Int
deriving Repr, DecidableEq

/-- Compiler::new. -/
def Compiler.new : Compiler := { locals := [], scope_depth := 0 }

/-- Parser state, compile.rs Parser. -/
structure Parser where
  current : Token
  previous : Token
  had_error : Bool
  panic_mode : Bool
  compiler : Compiler
deriving Repr, DecidableEq

/-- Parser::new. -/
def Parser.new : Parser :=
  { current := { token_type := TokenType.EOF, start := 0, length := 0, line := 0 },
    previous := { token_type := TokenType.EOF, start := 0, length := 0, line := 0 },
    had_error := false,
    panic_mode := false,
    compiler := Compiler.new }

/-- Bundle of the mutable references threaded through every Parser method:
the parser itself, the scanner, the chunk under construction, the heap, plus
a log of the error messages written to standard error by error_at. -/
structure CompileState where
  parser : Parser
  scanner : Scanner
  chunk : Chunk
  heap : Heap
  stderrLog : List String
deriving Repr, DecidableEq

/-- Parser::error_at.  The source formats a diagnostic line onto standard
error; the model records the message text.  Both panic_mode and had_error are
set, and there is no early return on panic_mode, so every call is logged. -/
def error_at (st : CompileState) (_token : Token) (message : String) :
    CompileState :=
  { st with
      parser := { st.parser with panic_mode := true, had_error := true },
      stderrLog := st.stderrLog ++ [message] }

/-- Parser::error_at_current. -/
def error_at_current (st : CompileState) (message : String) : CompileState :=
  error_at st st.parser.current message

/-- Parser::error_at_previous. -/
def error_at_previous (st : CompileState) (message : String) : CompileState :=
  error_at st st.parser.previous message

/-- Loop of Parser::advance: scan until a non-Error token arrives, reporting
each Error token with its start field rendered as the message. -/
def advanceLoop (source : List Char) (st : CompileState) :
    Nat → Except String CompileState
  | 0 => .error "fuel exhausted in advanceLoop"
  | fuel + 1 => do
    let (sc, tok) ← st.scanner.scan_token source
    let st := { st with scanner := sc, parser := { st.parser with current := tok } }
    if tok.token_type ≠ TokenType.Error then .ok st
    else
      let st := error_at_current st (toString tok.start)
      advanceLoop source st fuel

/-- Parser::advance. -/
def advance (source : List Char) (st : CompileState) :
    Except String CompileState :=
  let st := { st with parser := { st.parser with previous := st.parser.current } }
  advanceLoop source st (source.length + 2)

/-- Parser::consume. -/
def consume (source : List Char) (token_type : TokenType) (message : String)
    (st : CompileState) : Except String CompileState :=
  if st.parser.current.token_type = token_type then advance source st
  else .ok (error_at_current st message)

/-- Parser::match_token. -/
def match_token (source : List Char) (token_type : TokenType)
    (st : CompileState) : Except String (Bool × CompileState) :=
  if st.parser.current.token_type ≠ token_type then .ok (false, st)
  else do
    let st ← advance source st
    .ok (true, st)

/-- Parser::add_local: push a Local with depth -1. -/
def add_local (st : CompileState) (token : Token) : CompileState :=
  { st with parser := { st.parser with compiler :=
      { st.parser.compiler with locals :=
          st.parser.compiler.locals ++ [{ token := token, depth := -1 }] } } }

/-- Parser::emit_byte. -/
def emit_byte (st : CompileState) (ol : Op × Line) : CompileState :=
  { st with chunk := { st.chunk with code := st.chunk.code ++ [ol] } }

/-- Parser::emit_bytes. -/
def emit_bytes (st : CompileState) (ol1 ol2 : Op × Line) : CompileState :=
  emit_byte (emit_byte st ol1) ol2

/-- Parser::emit_constant: add to the pool, report overflow past index 255,
and emit the Constant opcode.  Note the constant stays in the pool even on
the error path, and only Number and Obj values are handled. -/
def emit_constant (st : CompileState) (value : Value) (l : Line) : CompileState :=
  match value with
  | .Number val =>
    let (constant, ch) := st.chunk.add_constant (.Number val)
    let st := { st with chunk := ch }
    let st := if 255 < constant
      then error_at_previous st "Too many constants in one chunk." else st
    emit_byte st (.Constant constant, l)
  | .Obj val =>
    let (constant, ch) := st.chunk.add_constant (.Obj val)
    let st := { st with chunk := ch }
    let st := if 255 < constant
      then error_at_previous st "Too many constants in one chunk." else st
    emit_byte st (.Constant constant, l)
  | _ => st

/-- Parser::identifier_constant: intern the previous lexeme in the heap and
append it to the constant pool with no bound check. -/
def identifier_constant (source : List Char) (st : CompileState) :
    Nat × CompileState :=
  let identifier :=
    String.mk ((source.drop st.parser.previous.start).take st.parser.previous.length)
  let (hid, heap) := st.heap.allocate (HeapData.String identifier)
  let (idx, ch) := st.chunk.add_constant (.Obj hid)
  (idx, { st with heap := heap, chunk := ch })

/-- Lexeme comparison closure of declare_variable. -/
def is_same_token (source : List Char) (t1 t2 : Token) : Bool :=
  decide ((source.drop t1.start).take t1.length
          = (source.drop t2.start).take t2.length)

/-- Collision walk of Parser::declare_variable: scan the locals from the top,
stop at the first local of a different depth, and report a redeclaration for
every same-name local at the current depth. -/
def declareLoop (source : List Char) (name : Token) (scope_depth : Int) :
    List Local → CompileState → CompileState
  | [], st => st
  | l :: rest, st =>
    if l.depth ≠ scope_depth then st
    else
      let st := if is_same_token source name l.token
        then error_at_current st
          "Variable with this name already declared in this scope."
        else st
      declareLoop source name scope_depth rest st

/-- Parser::declare_variable. -/
def declare_variable (source : List Char) (st : CompileState) : CompileState :=
  if st.parser.compiler.scope_depth = 0 then st
  else
    let name := st.parser.previous
    let scope_depth := st.parser.compiler.scope_depth
    let st := declareLoop source name scope_depth
      st.parser.compiler.locals.reverse st
    add_local st name

/-- Parser::mark_initialized: set the depth of the newest local; unwraps the
last element and so panics when the locals list is empty. -/
def markInitialized (st : CompileState) : Except String CompileState :=
  if st.parser.compiler.scope_depth = 0 then .ok st
  else
    match st.parser.compiler.locals.getLast? with
    | none => .error "unwrap on None in mark_initialized"
    | some l =>
      .ok { st with parser := { st.parser with compiler :=
        { st.parser.compiler with locals :=
            st.parser.compiler.locals.dropLast
              ++ [{ l with depth := st.parser.compiler.scope_depth }] } } }

/-- Parser::define_variable. -/
def define_variable (st : CompileState) (global : Nat) :
    Except String CompileState :=
  if 0 < st.parser.compiler.scope_depth then markInitialized st
  else .ok (emit_byte st (.DefineGlobal global, line st.parser.previous.line))

/-- Parser::begin_scope. -/
def begin_scope (st : CompileState) : CompileState :=
  { st with parser := { st.parser with compiler :=
      { st.parser.compiler with scope_depth :=
          st.parser.compiler.scope_depth + 1 } } }

/-- Parser::end_scope: decrement the depth and emit one Pop per local deeper
than the new depth.  The source never removes those locals from the
compiler locals list. -/
def end_scope (st : CompileState) : CompileState :=
  let sd := st.parser.compiler.scope_depth - 1
  let st := { st with parser := { st.parser with compiler :=
      { st.parser.compiler with scope_depth := sd } } }
  let locals_to_pop :=
    (st.parser.compiler.locals.reverse.takeWhile
      (fun l => decide (sd < l.depth))).length
  (List.range locals_to_pop).foldl
    (fun st _ => emit_byte st (.Pop, line st.parser.previous.line)) st

/-- Search walk of Parser::resolve_local over the enumerated locals from the
top; an uninitialised hit still resolves after reporting the error. -/
def resolveLoop (source : List Char) (name : List Char) :
    List (Nat × Local) → CompileState → Int × CompileState
  | [], st => (-1, st)
  | (i, l) :: rest, st =>
    let local_name := (source.drop l.token.start).take l.token.length
    if name = local_name then
      let st := if l.depth = -1
        then error_at_current st
          "Cannot read local variable in its own initializer."
        else st
      ((i : Int), st)
    else resolveLoop source name rest st

/-- Parser::resolve_local. -/
def resolve_local (source : List Char) (st : CompileState) :
    Int × CompileState :=
  let name := (source.drop st.parser.previous.start).take st.parser.previous.length
  resolveLoop source name st.parser.compiler.locals.enum.reverse st

/-- Parser::parse_variable. -/
def parse_variable (source : List Char) (st : CompileState) :
    Except String (Nat × CompileState) := do
  let st ← consume source TokenType.Identifier "Expect variable name." st
  let st := declare_variable source st
  if 0 < st.parser.compiler.scope_depth then .ok (0, st)
  else .ok (identifier_constant source st)

/-- Loop of Parser::synchronize. -/
def syncLoop (source : List Char) (st : CompileState) :
    Nat → Except String CompileState
  | 0 => .error "fuel exhausted in syncLoop"
  | fuel + 1 =>
    if st.parser.current.token_type = TokenType.EOF then .ok st
    else if st.parser.previous.token_type = TokenType.Semicolon then .ok st
    else
      match st.parser.current.token_type with
      | TokenType.Class | TokenType.Fun | TokenType.Var | TokenType.For
      | TokenType.If | TokenType.While | TokenType.Print | TokenType.Return =>
        .ok st
      | _ => do
        let st ← advance source st
        syncLoop source st fuel

/-- Parser::synchronize: clear panic_mode, then skip to a statement
boundary. -/
def synchronize (source : List Char) (st : CompileState) :
    Except String CompileState :=
  let st := { st with parser := { st.parser with panic_mode := false } }
  syncLoop source st (source.length + 2)

/-- Tag for the prefix entries of the parse-rule table; the source stores
function pointers, modelled here as an enum dispatched in parse_precedence. -/
inductive PrefixFn
  | grouping
  | unary
  | number
  | string
  | literal
  | variableFn
deriving Repr, DecidableEq

/-- Tag for the infix entries of the parse-rule table. -/
inductive InfixFn
  | binary
deriving Repr, DecidableEq

/-- Parse-rule row, compile.rs ParseRule. -/
structure ParseRule where
  prefixRule : Option PrefixFn
  infixRule : Option InfixFn
  precedence : Precedence

/-- Parser::get_rule: the full token-kind table. -/
def get_rule : TokenType → ParseRule
  | TokenType.LeftParen =>
    { prefixRule := some .grouping, infixRule := none, precedence := .None }
  | TokenType.RightParen =>
    { prefixRule := none, infixRule := none, precedence := .None }
  | TokenType.LeftBrace =>
    { prefixRule := none, infixRule := none, precedence := .None }
  | TokenType.RightBrace =>
    { prefixRule := none, infixRule := none, precedence := .None }
  | TokenType.Comma =>
    { prefixRule := none, infixRule := none, precedence := .None }
  | TokenType.Dot =>
    { prefixRule := none, infixRule := none, precedence := .None }
  | TokenType.Minus =>
    { prefixRule := some .unary, infixRule := some .binary, precedence := .Term }
  | TokenType.Plus =>
    { prefixRule := none, infixRule := some .binary, precedence := .Term }
  | TokenType.Semicolon =>
    { prefixRule := none, infixRule := none, precedence := .None }
  | TokenType.Slash =>
    { prefixRule := none, infixRule := some .binary, precedence := .Factor }
  | TokenType.Star =>
    { prefixRule := none, infixRule := some .binary, precedence := .Factor }
  | TokenType.Bang =>
    { prefixRule := some .unary, infixRule := none, precedence := .None }
  | TokenType.BangEqual =>
    { prefixRule := none, infixRule := some .binary, precedence := .Equality }
  | TokenType.Equal =>
    { prefixRule := none, infixRule := none, precedence := .None }
  | TokenType.EqualEqual =>
    { prefixRule := none, infixRule := some .binary, precedence := .Equality }
  | TokenType.Greater =>
    { prefixRule := none, infixRule := some .binary, precedence := .Comparison }
  | TokenType.GreaterEqual =>
    { prefixRule := none, infixRule := some .binary, precedence := .Comparison }
  | TokenType.Less =>
    { prefixRule := none, infixRule := some .binary, precedence := .Comparison }
  | TokenType.LessEqual =>
    { prefixRule := none, infixRule := some .binary, precedence := .Comparison }
  | TokenType.Identifier =>
    { prefixRule := some .variableFn, infixRule := none, precedence := .None }
  | TokenType.String =>
    { prefixRule := some .string, infixRule := none, precedence := .None }
  | TokenType.Number =>
    { prefixRule := some .number, infixRule := none, precedence := .None }
  | TokenType.And =>
    { prefixRule := none, infixRule := none, precedence := .None }
  | TokenType.Class =>
    { prefixRule := none, infixRule := none, precedence := .None }
  | TokenType.Else =>
    { prefixRule := none, infixRule := none, precedence := .None }
  | TokenType.False =>
    { prefixRule := some .literal, infixRule := none, precedence := .None }
  | TokenType.For =>
    { prefixRule := none, infixRule := none, precedence := .None }
  | TokenType.Fun =>
    { prefixRule := none, infixRule := none, precedence := .None }
  | TokenType.If =>
    { prefixRule := none, infixRule := none, precedence := .None }
  | TokenType.Nil =>
    { prefixRule := some .literal, infixRule := none, precedence := .None }
  | TokenType.Or =>
    { prefixRule := none, infixRule := none, precedence := .None }
  | TokenType.Print =>
    { prefixRule := none, infixRule := none, precedence := .None }
  | TokenType.Return =>
    { prefixRule := none, infixRule := none, precedence := .None }
  | TokenType.Super =>
    { prefixRule := none, infixRule := none, precedence := .None }
  | TokenType.This =>
    { prefixRule := none, infixRule := none, precedence := .None }
  | TokenType.True =>
    { prefixRule := some .literal, infixRule := none, precedence := .None }
  | TokenType.Var =>
    { prefixRule := none, infixRule := none, precedence := .None }
  | TokenType.While =>
    { prefixRule := none, infixRule := none, precedence := .None }
  | TokenType.Error =>
    { prefixRule := none, infixRule := none, precedence := .None }
  | TokenType.EOF =>
    { prefixRule := none, infixRule := none, precedence := .None }

/-- Accumulate the value of a digit run, used to model f64 parsing. -/
def digitsVal (l : List Char) : Nat :=
  l.foldl (fun acc c => acc * 10 + (c.toNat - 48)) 0

/-- Model of str::parse for f64 restricted to the digits-dot-digits lexemes
this scanner produces; exact for every decimal literal. -/
def parse_f64 (l : List Char) : Option ℚ :=
  let intPart := l.takeWhile (fun c => decide (c ≠ '.'))
  let rest := l.dropWhile (fun c => decide (c ≠ '.'))
  match rest with
  | [] =>
    if intPart ≠ [] ∧ intPart.all Char.isDigit
    then some ((digitsVal intPart : ℚ)) else none
  | _ :: frac =>
    if intPart ≠ [] ∧ intPart.all Char.isDigit ∧ frac.all Char.isDigit
    then some ((digitsVal intPart : ℚ)
               + (digitsVal frac : ℚ) / ((10 : ℚ) ^ frac.length))
    else none

/-- Parser::number prefix rule: byte-slice the previous lexeme and parse it
as f64. -/
def numberRule (source : List Char) (st : CompileState) :
    Except String CompileState := do
  let lexeme ← byteSlice source st.parser.previous.start
    (st.parser.previous.start + st.parser.previous.length)
  match parse_f64 lexeme with
  | some val => .ok (emit_constant st (.Number val) (line st.parser.previous.line))
  | none => .error "unwrap on None in number parse"

/-- Parser::string prefix rule: strip the quotes, intern, emit the constant. -/
def stringRule (source : List Char) (st : CompileState) : CompileState :=
  let strChars := (source.drop (st.parser.previous.start + 1)).take
    (st.parser.previous.length - 2)
  let (hid, heap) := st.heap.allocate (HeapData.String (String.mk strChars))
  emit_constant { st with heap := heap } (.Obj hid) (line st.parser.previous.line)

/-- Parser::literal prefix rule. -/
def literalRule (st : CompileState) : CompileState :=
  match st.parser.previous.token_type with
  | TokenType.False => emit_byte st (.False, line st.parser.previous.line)
  | TokenType.Nil => emit_byte st (.Nil, line st.parser.previous.line)
  | TokenType.True => emit_byte st (.True, line st.parser.previous.line)
  | _ => st

mutual

/-- Parser::declaration. -/
def declaration (fuel : Nat) (source : List Char) (st : CompileState) :
    Except String CompileState :=
  match fuel with
  | 0 => .error "fuel exhausted in declaration"
  | fuel + 1 => do
    let (m, st) ← match_token source TokenType.Var st
    let st ← if m then var_declaration fuel source st
             else statement fuel source st
    if st.parser.panic_mode then synchronize source st else .ok st
termination_by structural fuel


/-- Parser::statement. -/
def statement (fuel : Nat) (source : List Char) (st : CompileState) :
    Except String CompileState :=
  match fuel with
  | 0 => .error "fuel exhausted in statement"
  | fuel + 1 => do
    let (m, st) ← match_token source TokenType.Print st
    if m then print_statement fuel source st
    else do
      let (m2, st) ← match_token source TokenType.LeftBrace st
      if m2 then do
        let st := begin_scope st
        let st ← block fuel source st
        .ok (end_scope st)
      else do
        let st ← expression fuel source st false
        consume source TokenType.Semicolon
          "Expect \x27;\x27 after expression." st
termination_by structural fuel


/-- Parser::block. -/
def block (fuel : Nat) (source : List Char) (st : CompileState) :
    Except String CompileState :=
  match fuel with
  | 0 => .error "fuel exhausted in block"
  | fuel + 1 =>
    if st.parser.current.token_type ≠ TokenType.RightBrace
        ∧ st.parser.current.token_type ≠ TokenType.EOF then do
      let st ← declaration fuel source st
      block fuel source st
    else
      consume source TokenType.RightBrace "Expect \x27\x7d\x27 after block." st
termination_by structural fuel


/-- Parser::var_declaration. -/
def var_declaration (fuel : Nat) (source : List Char) (st : CompileState) :
    Except String CompileState :=
  match fuel with
  | 0 => .error "fuel exhausted in var_declaration"
  | fuel + 1 => do
    let (global, st) ← parse_variable source st
    let (m, st) ← match_token source TokenType.Equal st
    let st ← if m then expression fuel source st false
             else .ok (emit_byte st (.Nil, line st.parser.previous.line))
    let st ← consume source TokenType.Semicolon
      "Expect \x27;\x27 after variable declaration." st
    define_variable st global


/-- Parser::print_statement. -/
def print_statement (fuel : Nat) (source : List Char) (st : CompileState) :
    Except String CompileState :=
  match fuel with
  | 0 => .error "fuel exhausted in print_statement"
  | fuel + 1 => do
    let st ← expression fuel source st false
    let st ← consume source TokenType.Semicolon
      "Expect \x27;\x27 after value." st
    .ok (emit_byte st (.Print, line st.parser.previous.line))


/-- Parser::expression; the can_assign argument is accepted and ignored,
as in the source. -/
def expression (fuel : Nat) (source : List Char) (st : CompileState)
    (_can_assign : Bool) : Except String CompileState :=
  match fuel with
  | 0 => .error "fuel exhausted in expression"
  | fuel + 1 => parse_precedence fuel source Precedence.Assignment st
termination_by structural fuel


/-- Parser::parse_precedence.  Note there is no expect-expression error when
the prefix rule is absent, and no invalid-assignment-target check after the
loop: the function simply returns. -/
def parse_precedence (fuel : Nat) (source : List Char)
    (precedence : Precedence) (st : CompileState) :
    Except String CompileState :=
  match fuel with
  | 0 => .error "fuel exhausted in parse_precedence"
  | fuel + 1 => do
    let st ← advance source st
    let prefix_rule := (get_rule st.parser.previous.token_type).prefixRule
    let can_assign := decide (precedence.toNat ≤ Precedence.Assignment.toNat)
    let st ← match prefix_rule with
      | some pf => runPrefixFn fuel source pf st can_assign
      | none => .ok st
    precLoop fuel source precedence st
termination_by structural fuel


/-- While-loop of parse_precedence: keep consuming infix operators of
precedence at least the requested one; the infix rules receive can_assign
false. -/
def precLoop (fuel : Nat) (source : List Char) (precedence : Precedence)
    (st : CompileState) : Except String CompileState :=
  match fuel with
  | 0 => .error "fuel exhausted in precLoop"
  | fuel + 1 =>
    if precedence.toNat
        ≤ (get_rule st.parser.current.token_type).precedence.toNat then do
      let st ← advance source st
      let st ← match (get_rule st.parser.previous.token_type).infixRule with
        | some inf => runInfixFn fuel source inf st false
        | none => .ok st
      precLoop fuel source precedence st
    else .ok st
termination_by structural fuel


/-- Parser::named_variable.  The Equal match_token is only evaluated behind
the short-circuit when can_assign holds. -/
def named_variable (fuel : Nat) (source : List Char) (st : CompileState)
    (can_assign : Bool) : Except String CompileState :=
  match fuel with
  | 0 => .error "fuel exhausted in named_variable"
  | fuel + 1 => do
    let (global, st) := identifier_constant source st
    let (localIdx, st) := resolve_local source st
    let getOrSet := fun (setOp : Bool) (st : CompileState) =>
      if localIdx ≠ -1 then
        emit_byte st
          ((if setOp then Op.SetLocal localIdx.toNat
            else Op.GetLocal localIdx.toNat), line st.parser.previous.line)
      else
        emit_byte st
          ((if setOp then Op.SetGlobal global else Op.GetGlobal global),
            line st.parser.previous.line)
    if can_assign then do
      let (m, st) ← match_token source TokenType.Equal st
      if m then do
        let st ← expression fuel source st can_assign
        .ok (getOrSet true st)
      else .ok (getOrSet false st)
    else .ok (getOrSet false st)
termination_by structural fuel


/-- Parser::grouping prefix rule. -/
def grouping (fuel : Nat) (source : List Char) (st : CompileState)
    (_can_assign : Bool) : Except String CompileState :=
  match fuel with
  | 0 => .error "fuel exhausted in grouping"
  | fuel + 1 => do
    let st ← expression fuel source st false
    consume source TokenType.RightParen "Expect \x27)\x27 after expression." st
termination_by structural fuel


/-- Parser::unary prefix rule. -/
def unary (fuel : Nat) (source : List Char) (st : CompileState)
    (_can_assign : Bool) : Except String CompileState :=
  match fuel with
  | 0 => .error "fuel exhausted in unary"
  | fuel + 1 => do
    let operator_type := st.parser.previous.token_type
    let st ← parse_precedence fuel source Precedence.Unary st
    match operator_type with
    | TokenType.Bang => .ok (emit_byte st (.Not, line st.parser.previous.line))
    | TokenType.Minus => .ok (emit_byte st (.Negate, line st.parser.previous.line))
    | _ => .ok st
termination_by structural fuel


/-- Parser::binary infix rule. -/
def binary (fuel : Nat) (source : List Char) (st : CompileState)
    (_can_assign : Bool) : Except String CompileState :=
  match fuel with
  | 0 => .error "fuel exhausted in binary"
  | fuel + 1 => do
    let operator_type := st.parser.previous.token_type
    let rule := get_rule operator_type
    let st ← parse_precedence fuel source rule.precedence.increase st
    match operator_type with
    | TokenType.BangEqual =>
      .ok (emit_bytes st (.Equal, line st.parser.previous.line)
        (.Not, line st.parser.previous.line))
    | TokenType.EqualEqual =>
      .ok (emit_byte st (.Equal, line st.parser.previous.line))
    | TokenType.Greater =>
      .ok (emit_byte st (.Greater, line st.parser.previous.line))
    | TokenType.GreaterEqual =>
      .ok (emit_bytes st (.Less, line st.parser.previous.line)
        (.Not, line st.parser.previous.line))
    | TokenType.Less =>
      .ok (emit_byte st (.Less, line st.parser.previous.line))
    | TokenType.LessEqual =>
      .ok (emit_bytes st (.Greater, line st.parser.previous.line)
        (.Not, line st.parser.previous.line))
    | TokenType.Plus =>
      .ok (emit_byte st (.Add, line st.parser.previous.line))
    | TokenType.Minus =>
      .ok (emit_byte st (.Subtract, line st.parser.previous.line))
    | TokenType.Star =>
      .ok (emit_byte st (.Multiply, line st.parser.previous.line))
    | TokenType.Slash =>
      .ok (emit_byte st (.Divide, line st.parser.previous.line))
    | _ => .ok st
termination_by structural fuel


/-- Parser::variable prefix rule. -/
def variableFn (fuel : Nat) (source : List Char) (st : CompileState)
    (can_assign : Bool) : Except String CompileState :=
  match fuel with
  | 0 => .error "fuel exhausted in variableFn"
  | fuel + 1 => named_variable fuel source st can_assign
termination_by structural fuel


/-- Dispatch of a prefix-rule tag, standing in for the function-pointer call
in parse_precedence. -/
def runPrefixFn (fuel : Nat) (source : List Char) (pf : PrefixFn)
    (st : CompileState) (can_assign : Bool) : Except String CompileState :=
  match fuel with
  | 0 => .error "fuel exhausted in runPrefixFn"
  | fuel + 1 =>
    match pf with
    | .grouping => grouping fuel source st can_assign
    | .unary => unary fuel source st can_assign
    | .number => numberRule source st
    | .string => .ok (stringRule source st)
    | .literal => .ok (literalRule st)
    | .variableFn => variableFn fuel source st can_assign
termination_by structural fuel


/-- Dispatch of an infix-rule tag. -/
def runInfixFn (fuel : Nat) (source : List Char) (inf : InfixFn)
    (st : CompileState) (can_assign : Bool) : Except String CompileState :=
  match fuel with
  | 0 => .error "fuel exhausted in runInfixFn"
  | fuel + 1 =>
    match inf with
    | .binary => binary fuel source st can_assign
termination_by structural fuel

end

/-- Top-level declaration loop of Parser::compile. -/
def compileLoop (fuel : Nat) (source : List Char) (st : CompileState) :
    Except String CompileState :=
  match fuel with
  | 0 => .error "fuel exhausted in compileLoop"
  | fuel + 1 => do
    let (m, st) ← match_token source TokenType.EOF st
    if m then .ok st
    else do
      let st ← declaration fuel source st
      compileLoop fuel source st

/-- Parser::compile: prime the scanner, parse declarations until EOF, and
succeed iff no error was recorded.  Returns the success flag together with
the final compile state (whose chunk and heap the caller keeps even on
failure). -/
def compile (fuel : Nat) (source : List Char) (chunk : Chunk) (heap : Heap) :
    Except String (Bool × CompileState) := do
  let st0 : CompileState :=
    { parser := Parser.new, scanner := Scanner.new, chunk := chunk,
      heap := heap, stderrLog := [] }
  let st1 ← advance source st0
  let st2 ← compileLoop fuel source st1
  .ok (!st2.parser.had_error, st2)

/-- Virtual machine state, vm.rs VM, extended with an output field that
accumulates the bytes the VM writes to standard output. -/
structure VM where
  chunk : Chunk
  ip : Nat
  stack : List Value
  globals : List (String × Value)
  heap : Heap
  output : String
deriving Repr, DecidableEq

/-- VM::new. -/
def VM.new : VM :=
  { chunk := Chunk.new, ip := 0, stack := [], globals := [],
    heap := Heap.new, output := "" }

/-- VM::reset_stack. -/
def VM.reset_stack (vm : VM) : VM := { vm with stack := [] }

/-- VM::init_vm: clear the stack, replace the chunk, rewind the instruction
pointer; globals and heap are untouched. -/
def VM.init_vm (vm : VM) : VM :=
  { vm.reset_stack with chunk := Chunk.new, ip := 0 }

/-- VM::push; the list head is the top of the stack. -/
def VM.push (vm : VM) (value : Value) : VM :=
  { vm with stack := value :: vm.stack }

/-- VM::pop: unwraps, so an empty stack panics. -/
def VM.pop (vm : VM) : Except String (Value × VM) :=
  match vm.stack with
  | [] => .error "unwrap on None in VM pop"
  | v :: rest => .ok (v, { vm with stack := rest })

/-- VM::peek: stack[len - 1 - distance]; underflow or out-of-bounds panics. -/
def VM.peek (vm : VM) (distance : Nat) : Except String Value :=
  match vm.stack.get? distance with
  | some v => .ok v
  | none => .error "index out of bounds in VM peek"

/-- VM::equal.  The guard compares Any::type_id of the two operands; both are
of the concrete type Value, so the two TypeIds are always equal and the guard
never returns early.  The Nil arm then returns true without examining b. -/
def VM.equal (heap : Heap) (a b : Value) : Except String Bool :=
  match a with
  | .Bool a =>
    match b with
    | .Bool b => .ok (decide (a = b))
    | _ => .ok false
  | .Number a =>
    match b with
    | .Number b => .ok (decide (a = b))
    | _ => .ok false
  | .Nil => .ok true
  | .Obj obj_id_a =>
    match b with
    | .Obj obj_id_b => do
      let obj_a ← match heap.get obj_id_a with
        | some o => Except.ok o
        | none => Except.error "unwrap on None in VM equal"
      let obj_b ← match heap.get obj_id_b with
        | some o => Except.ok o
        | none => Except.error "unwrap on None in VM equal"
      match obj_a with
      | .String a =>
        match obj_b with
        | .String b => .ok (decide (a = b))
        | _ => .ok false
      | _ => .ok false
    | _ => .ok false

/-- Decimal rendering shared by Display of f64 in print_value and
f64::to_string in Add.  Exact for integral values, which are the only ones
the claims render; non-integral rationals are shown as a fraction. -/
def numToString (q : ℚ) : String :=
  if q.den = 1 then toString q.num
  else toString q.num ++ "/" ++ toString q.den

/-- debug.rs print_value: the bytes written to standard output for one
value.  Note the leading carriage return the source emits before the text. -/
def print_value (heap : Heap) (value : Value) : Except String String :=
  match value with
  | .Number num => .ok ("\r" ++ numToString num)
  | .Nil => .ok "\rnil"
  | .Bool b => .ok ("\r" ++ (if b then "true" else "false"))
  | .Obj v =>
    match heap.get v with
    | some od => .ok ("\r" ++ od.as_string)
    | none => .error "unwrap on None in print_value"

/-- Debug rendering of an opcode, as the derive of Debug prints it. -/
def opDebug : Op → String
  | .Constant k => "Constant(" ++ toString k ++ ")"
  | .Nil => "Nil"
  | .True => "True"
  | .False => "False"
  | .Pop => "Pop"
  | .GetLocal s => "GetLocal(" ++ toString s ++ ")"
  | .SetLocal s => "SetLocal(" ++ toString s ++ ")"
  | .GetGlobal k => "GetGlobal(" ++ toString k ++ ")"
  | .DefineGlobal k => "DefineGlobal(" ++ toString k ++ ")"
  | .SetGlobal k => "SetGlobal(" ++ toString k ++ ")"
  | .Equal => "Equal"
  | .Greater => "Greater"
  | .Less => "Less"
  | .Add => "Add"
  | .Subtract => "Subtract"
  | .Multiply => "Multiply"
  | .Divide => "Divide"
  | .Not => "Not"
  | .Negate => "Negate"
  | .Print => "Print"
  | .JumpIfFalse d => "JumpIfFalse(" ++ toString d ++ ")"
  | .Jump d => "Jump(" ++ toString d ++ ")"
  | .Loop d => "Loop(" ++ toString d ++ ")"
  | .Return => "Return"

/-- Debug rendering of a Line, as the derive of Debug prints the struct. -/
def lineDebug (l : Line) : String :=
  "Line \x7b value: " ++ toString l.value ++ " \x7d"

/-- VM::runtime_error: print the message, echo the offending instruction and
its line, clear the operand stack. -/
def runtime_error (vm : VM) (msg : String) : Except String VM :=
  let out := vm.output ++ msg ++ "\n"
  match vm.chunk.code.get? (vm.ip - 1) with
  | none => .error "index out of bounds in runtime_error"
  | some (op, l) =>
    .ok { vm with
            output := out ++ opDebug op ++ "\n"
              ++ "[line " ++ lineDebug l ++ "] in script\n",
            stack := [] }

/-- Result of executing one instruction: either continue the dispatch loop
or leave VM::run with an InterpretResult. -/
inductive StepRes
  | cont (vm : VM)
  | halt (res : InterpretResult) (vm : VM)
deriving Repr, DecidableEq

/-- State carried by a step outcome. -/
def StepRes.state : StepRes → VM
  | .cont vm => vm
  | .halt _ vm => vm

/-- In-opcode early return of several opcodes: once ip has reached the end
of the code, return Ok. -/
def endCheck (vm : VM) : StepRes :=
  if vm.chunk.code.length ≤ vm.ip then .halt .Ok vm else .cont vm

/-- The binary_op macro of vm.rs: pop b; when b is a Number, pop a and push
f(a, b) only when a is also a Number (a non-Number a is dropped silently);
when b is not a Number, report a runtime error.  f receives a then b. -/
def binary_op (vm : VM) (f : ℚ → ℚ → Value) : Except String StepRes := do
  let (b, vm) ← vm.pop
  match b with
  | .Number b => do
    let (a, vm) ← vm.pop
    match a with
    | .Number a => .ok (.cont (vm.push (f a b)))
    | _ => .ok (.cont vm)
  | _ => do
    let vm ← runtime_error vm "Operands must be numbers"
    .ok (.halt .RuntimeError vm)

/-- The runtime error message of the Add opcode. -/
def addErrMsg : String :=
  "Operands must be two numbers or two strings or one of each"

/-- The Add opcode body of VM::run.  The nested if-let chains have no final
else for a Number or Obj first operand whose partner is Bool or Nil: both
operands have been popped and nothing is pushed or reported. -/
def stepAdd (vm : VM) : Except String StepRes := do
  let (b, vm) ← vm.pop
  let (a, vm) ← vm.pop
  match a with
  | .Number a =>
    match b with
    | .Number b => .ok (.cont (vm.push (.Number (a + b))))
    | .Obj bId => do
      let obj_b ← match vm.heap.get bId with
        | some o => Except.ok o
        | none => Except.error "unwrap on None in Add"
      match obj_b with
      | .String b_string =>
        let new_string := numToString a ++ b_string
        let (new_obj, heap) := vm.heap.allocate (.String new_string)
        let vm := { vm with heap := heap }
        let vm := vm.push (.Obj new_obj)
        .ok (.cont { vm with heap := vm.heap.free bId })
      | _ => do
        let vm ← runtime_error vm addErrMsg
        .ok (.halt .RuntimeError vm)
    | _ => .ok (.cont vm)
  | .Obj aId =>
    match b with
    | .Obj bId => do
      let obj_a ← match vm.heap.get aId with
        | some o => Except.ok o
        | none => Except.error "unwrap on None in Add"
      let obj_b ← match vm.heap.get bId with
        | some o => Except.ok o
        | none => Except.error "unwrap on None in Add"
      match obj_a with
      | .String a_string =>
        match obj_b with
        | .String b_string =>
          let new_string := a_string ++ b_string
          let (new_obj, heap) := vm.heap.allocate (.String new_string)
          let vm := { vm with heap := heap }
          let vm := vm.push (.Obj new_obj)
          let vm := { vm with heap := vm.heap.free aId }
          .ok (.cont { vm with heap := vm.heap.free bId })
        | _ => do
          let vm ← runtime_error vm addErrMsg
          .ok (.halt .RuntimeError vm)
      | _ => do
        let vm ← runtime_error vm addErrMsg
        .ok (.halt .RuntimeError vm)
    | .Number b => do
      let obj_a ← match vm.heap.get aId with
        | some o => Except.ok o
        | none => Except.error "unwrap on None in Add"
      match obj_a with
      | .String a_string =>
        let new_string := a_string ++ numToString b
        let (new_obj, heap) := vm.heap.allocate (.String new_string)
        let vm := { vm with heap := heap }
        let vm := vm.push (.Obj new_obj)
        .ok (.cont { vm with heap := vm.heap.free aId })
      | _ => do
        let vm ← runtime_error vm addErrMsg
        .ok (.halt .RuntimeError vm)
    | _ => .ok (.cont vm)
  | _ => do
    let vm ← runtime_error vm addErrMsg
    .ok (.halt .RuntimeError vm)

/-- The Print opcode body of VM::run: only when the process-global
DEBUG_TRACE_EXECUTION flag is clear does it pop the top value and write its
rendering and a newline to standard output; with the flag set it does
nothing but the end-of-code check. -/
def stepPrint (dbg : Bool) (vm : VM) : Except String StepRes :=
  if !dbg then do
    let (v, vm) ← vm.pop
    let rendered ← print_value vm.heap v
    .ok (endCheck { vm with output := vm.output ++ rendered ++ "\n" })
  else .ok (endCheck vm)

/-- One iteration of the dispatch loop of VM::run: read_byte then execute
the opcode.  The dbg flag is the process-global DEBUG_TRACE_EXECUTION, which
the Print opcode consults. -/
def step (dbg : Bool) (vm : VM) : Except String StepRes := do
  let instruction ← match vm.chunk.code.get? vm.ip with
    | some (op, _) => Except.ok op
    | none => Except.error "index out of bounds in read_byte"
  let vm := { vm with ip := vm.ip + 1 }
  match instruction with
  | .Constant const_idx => do
    let constant ← match vm.chunk.constants.get? const_idx with
      | some c => Except.ok c
      | none => Except.error "index out of bounds in Constant"
    .ok (.cont { vm with stack := constant :: vm.stack })
  | .Nil => .ok (.cont { vm with stack := Value.Nil :: vm.stack })
  | .True => .ok (.cont { vm with stack := Value.Bool true :: vm.stack })
  | .False => .ok (.cont { vm with stack := Value.Bool false :: vm.stack })
  | .Pop => do
    let (_, vm) ← vm.pop
    .ok (.cont vm)
  | .GetLocal local_idx =>
    match vm.stack.get? (vm.stack.length - 1 - local_idx),
        decide (local_idx < vm.stack.length) with
    | some value, true => .ok (.cont (vm.push value))
    | _, _ => .error "index out of bounds in GetLocal"
  | .SetLocal local_idx => do
    let value ← vm.peek 0
    if local_idx < vm.stack.length then
      .ok (.cont { vm with
        stack := vm.stack.set (vm.stack.length - 1 - local_idx) value })
    else .error "index out of bounds in SetLocal"
  | .GetGlobal const_idx => do
    let constant ← match vm.chunk.constants.get? const_idx with
      | some c => Except.ok c
      | none => Except.error "index out of bounds in GetGlobal"
    match constant with
    | .Obj heap_id => do
      let obj ← match vm.heap.get heap_id with
        | some o => Except.ok o
        | none => Except.error "unwrap on None in GetGlobal"
      match obj with
      | .String string =>
        match mapGet vm.globals string with
        | some value => .ok (.cont (vm.push value))
        | none => do
          let vm ← runtime_error vm
            ("Undefined variable \x27" ++ string ++ "\x27")
          .ok (.halt .RuntimeError vm)
      | _ => do
        let vm ← runtime_error vm "Expected string as global variable name"
        .ok (.halt .RuntimeError vm)
    | _ => .ok (.cont vm)
  | .DefineGlobal const_idx => do
    let (val, vm) ← vm.pop
    let constant ← match vm.chunk.constants.get? const_idx with
      | some c => Except.ok c
      | none => Except.error "index out of bounds in DefineGlobal"
    match constant with
    | .Obj heap_id => do
      let obj ← match vm.heap.get heap_id with
        | some o => Except.ok o
        | none => Except.error "unwrap on None in DefineGlobal"
      match obj with
      | .String string =>
        .ok (endCheck { vm with globals := mapInsert vm.globals string val })
      | _ => do
        let vm ← runtime_error vm "Expected string as global variable name"
        .ok (.halt .RuntimeError vm)
    | _ => .ok (endCheck vm)
  | .SetGlobal const_idx => do
    let (val, vm) ← vm.pop
    let constant ← match vm.chunk.constants.get? const_idx with
      | some c => Except.ok c
      | none => Except.error "index out of bounds in SetGlobal"
    match constant with
    | .Obj heap_id => do
      let obj ← match vm.heap.get heap_id with
        | some o => Except.ok o
        | none => Except.error "unwrap on None in SetGlobal"
      match obj with
      | .String string =>
        if (mapGet vm.globals string).isSome then
          .ok (endCheck { vm with globals := mapInsert vm.globals string val })
        else do
          let vm ← runtime_error vm
            ("Undefined variable \x27" ++ string ++ "\x27")
          .ok (.halt .RuntimeError vm)
      | _ => do
        let vm ← runtime_error vm "Expected string as global variable name"
        .ok (.halt .RuntimeError vm)
    | _ => .ok (endCheck vm)
  | .Equal => do
    let (b, vm) ← vm.pop
    let (a, vm) ← vm.pop
    let eq ← VM.equal vm.heap a b
    .ok (.cont (vm.push (.Bool eq)))
  | .Greater => binary_op vm (fun a b => .Bool (decide (b < a)))
  | .Less => binary_op vm (fun a b => .Bool (decide (a < b)))
  | .Add => stepAdd vm
  | .Subtract => binary_op vm (fun a b => .Number (a - b))
  | .Multiply => binary_op vm (fun a b => .Number (a * b))
  | .Divide => binary_op vm (fun a b => .Number (a / b))
  | .Not => do
    let (val, vm) ← vm.pop
    match val with
    | .Bool value => .ok (.cont (vm.push (.Bool (!value))))
    | _ =>
      if val = Value.Nil then .ok (.cont (vm.push (.Bool true)))
      else do
        let vm ← runtime_error vm "Operand must be a boolean"
        .ok (.halt .RuntimeError vm)
  | .Negate => do
    let (val, vm) ← vm.pop
    match val with
    | .Number num => .ok (.cont (vm.push (.Number (-num))))
    | _ => do
      let vm ← runtime_error vm "Operand must be a number"
      .ok (.halt .RuntimeError vm)
  | .Print => stepPrint dbg vm
  | .JumpIfFalse offset => do
    let val ← vm.peek 0
    let vm := if val = Value.Nil ∨ val = Value.Bool false
      then { vm with ip := vm.ip + offset } else vm
    .ok (endCheck vm)
  | .Jump offset => .ok (endCheck { vm with ip := vm.ip + offset })
  | .Loop offset =>
    if offset ≤ vm.ip then .ok (endCheck { vm with ip := vm.ip - offset })
    else .error "usize underflow in Loop"
  | .Return => .ok (.halt .Ok vm)

/-- VM::run, modelled with DEBUG_TRACE_EXECUTION false, under which
debug_trace_stack prints nothing; the flag-dependent behaviour of the Print
opcode itself is modelled in step.  After each non-returning iteration the
loop returns Ok once ip has reached the end of the code. -/
def run (fuel : Nat) (vm : VM) : Except String (InterpretResult × VM) :=
  match fuel with
  | 0 => .error "fuel exhausted in run"
  | fuel + 1 => do
    let r ← step false vm
    match r with
    | .halt res vm => .ok (res, vm)
    | .cont vm =>
      if vm.chunk.code.length ≤ vm.ip then .ok (InterpretResult.Ok, vm)
      else run fuel vm

/-- VM::interpret: compile into a fresh chunk against the VM heap; on
failure return CompileError keeping the heap mutations; on success install
the chunk, rewind ip, clear the stack and run. -/
def interpret (fuel : Nat) (vm : VM) (source : List Char) :
    Except String (InterpretResult × VM) := do
  let (success, cst) ← compile fuel source Chunk.new vm.heap
  if !success then .ok (.CompileError, { vm with heap := cst.heap })
  else
    let vm := { vm with chunk := cst.chunk, heap := cst.heap,
                        ip := 0, stack := [] }
    run fuel vm

/-! Concrete programs and machine states used by the claim theorems. -/

/-- The initial compile state that Parser::compile builds from a fresh
parser and scanner, used to start the compiler mid-pipeline. -/
def initCompileState (chunk : Chunk) (heap : Heap) : CompileState :=
  { parser := Parser.new, scanner := Scanner.new, chunk := chunk,
    heap := heap, stderrLog := [] }

/-- A block declaring one local, followed by a use of the same name after
the block has been closed. -/
def srcC1 : List Char := "{ var x = 1; } print x;".toList

/-- Specification scenario 3: shadowing a global with a block-local. -/
def srcC2 : List Char := "var x = 10; { var x = 20; print x; } print x;".toList

/-- Addition of a number and a boolean. -/
def srcC4 : List Char := "print 1 + true;".toList

/-- A VM state about to execute Add on operands Number 1 (pushed first) and
Bool true (on top). -/
def vmC4 : VM :=
  { chunk := { code := [(Op.Add, line 1)], constants := [] }, ip := 0,
    stack := [Value.Bool true, Value.Number 1], globals := [],
    heap := Heap.new, output := "" }

/-- Concatenation of two string literals. -/
def srcC5 : List Char := "print \"a\" + \"b\";".toList

/-- 257 expression statements reading the global a, each of which interns an
identifier constant; the trailing blank keeps the keyword check of the final
identifier inside the source. -/
def srcC6 : List Char := (List.replicate 257 ['a', ';']).flatten ++ [' ']

/-- A compile state whose chunk already holds 256 constants. -/
def stC6w : CompileState :=
  initCompileState
    { code := [], constants := List.replicate 256 (Value.Number 0) } Heap.new

/-- A single identifier whose first letter dispatches into check_keyword. -/
def srcC7 : List Char := "a".toList

/-- An expression statement whose expression is not an assignment target,
followed by an equals sign. -/
def srcC8 : List Char := "1 = 2;".toList

/-- A global definition, and a later program reading it. -/
def srcC9a : List Char := "var x = 1;".toList

/-- Reader program for the persistence scenario. -/
def srcC9b : List Char := "print x;".toList

/-- A VM state about to execute Print with one number on the stack. -/
def vmC10 : VM :=
  { chunk := { code := [(Op.Print, line 1)], constants := [] }, ip := 0,
    stack := [Value.Number 5], globals := [], heap := Heap.new, output := "" }

/-- Equality test of nil against a boolean. -/
def srcC3 : List Char := "print nil == true;".toList

/-! Theorems settling the claims. -/

/-- Helper: the state carried by an endCheck outcome is the state passed in,
whichever way the end-of-code test goes. -/
theorem endCheck_state (vm : VM) : (endCheck vm).state = vm := by
  unfold endCheck
  split <;> rfl

/-- Helper: binding a successful Except value applies the continuation. -/
theorem except_bind_ok {ε α β : Type} (a : α) (f : α → Except ε β) :
    (Except.ok a >>= f : Except ε β) = f a := rfl

/-- Claim C1 (code bug evidence).  The claim says end_scope removes the
popped Locals from the locals list so that no Local deeper than the current
scope_depth remains resolvable.  The code only emits the Pops: compiling a
block that declares local x and then reading x after the block has closed
succeeds, leaves the depth-1 Local in the list at scope_depth 0, and compiles
the later read to GetLocal 0 rather than GetGlobal. -/
theorem claim_c1_end_scope_keeps_locals :
    (compile 2000 srcC1 Chunk.new Heap.new).toOption.map
      (fun r => (r.1, r.2.chunk.code.map Prod.fst,
                 r.2.parser.compiler.locals.map Local.depth,
                 r.2.parser.compiler.scope_depth))
      = some (true, [Op.Constant 0, Op.Pop, Op.GetLocal 0, Op.Print],
              [1], 0) := by
  decide!

/-- Claim C2 (code bug evidence).  The claim says the shadowing scenario
prints 20 then 10 and returns Ok.  Because end_scope never drops the block
local, the final print of x compiles to GetLocal 0, and executing it on the
by-then empty stack aborts with an index panic instead of printing 10. -/
theorem claim_c2_shadowed_global_panics :
    ((compile 2000 srcC2 Chunk.new Heap.new).toOption.map
        (fun r => (r.1, r.2.chunk.code.map Prod.fst))
      = some (true, [Op.Constant 1, Op.DefineGlobal 0, Op.Constant 2,
                     Op.GetLocal 0, Op.Print, Op.Pop, Op.GetLocal 0,
                     Op.Print]))
    ∧ interpret 2000 VM.new srcC2
        = .error "index out of bounds in GetLocal" := by
  decide!

/-- Claim C3 (code bug evidence).  The claim says values of different
variants are unequal, in particular equal(Nil, v) holds only for v = Nil.
The TypeId guard in the source never fires, and the Nil arm returns true
without examining the second operand, so Nil compares equal to every value;
a program printing nil == true prints true. -/
theorem claim_c3_nil_equal_any :
    VM.equal Heap.new Value.Nil (Value.Bool true) = .ok true
    ∧ VM.equal Heap.new Value.Nil (Value.Number 1) = .ok true
    ∧ (interpret 2000 VM.new srcC3).toOption.map
        (fun r => (r.1, r.2.output))
        = some (InterpretResult.Ok, "\rtrue\n") := by
  decide!

/-- Claim C4 (code bug evidence).  The claim says every operand combination
other than the four supported ones reports a runtime error and none is a
silent no-op.  Executing Add on Number 1 and Bool true pops both operands,
pushes nothing, reports nothing, and continues; interpreting the
corresponding program then aborts with a pop panic at the following Print
instead of surfacing the advertised RuntimeError. -/
theorem claim_c4_add_silent_combination :
    step false vmC4 = .ok (StepRes.cont { vmC4 with ip := 1, stack := [] })
    ∧ interpret 2000 VM.new srcC4 = .error "unwrap on None in VM pop" := by
  decide!

/-- Claim C5 (code bug evidence).  The claim says every Obj handle held in
the constant pool resolves in the Heap at every point of execution.  After
adding two string-literal constants, the Add opcode frees both operand
handles even though they remain in the pool: the run finishes Ok with pool
entries Obj 0 and Obj 1 both dangling. -/
theorem claim_c5_add_dangles_pool_handles :
    ((interpret 2000 VM.new srcC5).toOption.map
        (fun r => (r.1, r.2.output, r.2.chunk.constants))
      = some (InterpretResult.Ok, "\rab\n", [Value.Obj 0, Value.Obj 1]))
    ∧ ((interpret 2000 VM.new srcC5).toOption.map
        (fun r => (r.2.heap.get 0, r.2.heap.get 1, (r.2.heap.get 2).isSome))
      = some (none, none, true)) := by
  decide!

/-- Claim C6 counterexample.  A program of 257 identifier statements
compiles successfully with no diagnostic and a 257-entry constant pool:
identifier constants bypass the 256 bound entirely. -/
theorem claim_c6_counterexample :
    (compile 2000 srcC6 Chunk.new Heap.new).toOption.map
      (fun r => (r.1, r.2.chunk.constants.length, r.2.stderrLog))
      = some (true, 257, []) := by
  decide!

/-- Claim C6 as amended.  Only emit_constant, used for number and string
literal constants, reports the overflow when the new index exceeds 255 (the
entry stays in the pool even then); identifier_constant appends to the pool
with no bound check and records no error, which is how a successful compile
can end with more than 256 constants. -/
theorem claim_c6_amended (st : CompileState) (q : ℚ) (i : Nat) (l : Line)
    (source : List Char) (h : 256 ≤ st.chunk.constants.length) :
    ((emit_constant st (.Number q) l).parser.had_error = true
      ∧ (emit_constant st (.Number q) l).stderrLog
          = st.stderrLog ++ ["Too many constants in one chunk."]
      ∧ (emit_constant st (.Number q) l).chunk.constants.length
          = st.chunk.constants.length + 1)
    ∧ (emit_constant st (.Obj i) l).parser.had_error = true
    ∧ ((identifier_constant source st).2.parser.had_error
          = st.parser.had_error
      ∧ (identifier_constant source st).2.stderrLog = st.stderrLog
      ∧ (identifier_constant source st).2.chunk.constants.length
          = st.chunk.constants.length + 1) := by
  have hc : 255 < st.chunk.constants.length := by omega
  refine ⟨⟨?_, ?_, ?_⟩, ?_, ?_, ?_, ?_⟩ <;>
    simp [emit_constant, Chunk.add_constant, emit_byte, error_at_previous,
          error_at, identifier_constant, hc]

/-- Witness for the amended claim C6 at a pool already holding 256
constants. -/
theorem claim_c6_amended_witness :
    256 ≤ stC6w.chunk.constants.length
    ∧ (((emit_constant stC6w (.Number 0) (line 1)).parser.had_error = true
        ∧ (emit_constant stC6w (.Number 0) (line 1)).stderrLog
            = stC6w.stderrLog ++ ["Too many constants in one chunk."]
        ∧ (emit_constant stC6w (.Number 0) (line 1)).chunk.constants.length
            = stC6w.chunk.constants.length + 1)
      ∧ (emit_constant stC6w (.Obj 0) (line 1)).parser.had_error = true
      ∧ ((identifier_constant ['a'] stC6w).2.parser.had_error
            = stC6w.parser.had_error
        ∧ (identifier_constant ['a'] stC6w).2.stderrLog = stC6w.stderrLog
        ∧ (identifier_constant ['a'] stC6w).2.chunk.constants.length
            = stC6w.chunk.constants.length + 1)) :=
  ⟨by decide, claim_c6_amended stC6w 0 0 (line 1) ['a'] (by decide)⟩

/-- Claim C7 (code bug evidence).  The claim says interpret never panics.
Scanning the one-letter identifier a at end of source overruns the
check_keyword byte slice; the shadowing scenario overruns the stack in
GetLocal; the Number-plus-Bool program unwraps a pop of the empty stack.
Each aborts instead of returning an InterpretResult. -/
theorem claim_c7_interpret_panics :
    interpret 2000 VM.new srcC7
        = .error "byte index out of bounds in string slice"
    ∧ interpret 2000 VM.new srcC2 = .error "index out of bounds in GetLocal"
    ∧ interpret 2000 VM.new srcC4 = .error "unwrap on None in VM pop" := by
  decide!

/-- Claim C8 counterexample.  Compiling an expression statement whose
expression is no assignment target, followed by an equals sign, fails with
the expect-semicolon diagnostic only: the invalid-assignment-target message
is never reported. -/
theorem claim_c8_counterexample :
    ((compile 2000 srcC8 Chunk.new Heap.new).toOption.map
        (fun r => (r.1, r.2.stderrLog))
      = some (false, ["Expect \x27;\x27 after expression."]))
    ∧ ¬ ((compile 2000 srcC8 Chunk.new Heap.new).toOption.map
        (fun r => decide (("Invalid assignment target.") ∈ r.2.stderrLog))
      = some true) := by
  decide!

/-- Claim C8 as amended.  parse_precedence performs no
invalid-assignment-target check: with can_assign true and the equals sign
still unconsumed after the expression, it returns with no diagnostic and the
equals sign as the current token; compile of the statement still fails, but
through the expect-semicolon error of the enclosing statement. -/
theorem claim_c8_amended :
    (((do
        let st1 ← advance srcC8 (initCompileState Chunk.new Heap.new)
        parse_precedence 2000 srcC8 Precedence.Assignment st1) :
          Except String CompileState).toOption.map
      (fun r => (r.parser.current.token_type, r.parser.had_error,
                 r.stderrLog))
      = some (TokenType.Equal, false, []))
    ∧ ((compile 2000 srcC8 Chunk.new Heap.new).toOption.map
        (fun r => (r.1, r.2.stderrLog))
        = some (false, ["Expect \x27;\x27 after expression."])) := by
  decide!

/-- Claim C9 (confirmed).  init_vm resets the chunk to empty, rewinds the
instruction pointer and clears the operand stack while leaving globals and
heap untouched, and a global defined by one interpret call is read by a
later interpret call on the same VM. -/
theorem claim_c9_init_vm_and_persistence :
    (∀ vm : VM,
      vm.init_vm.globals = vm.globals
      ∧ vm.init_vm.heap = vm.heap
      ∧ vm.init_vm.output = vm.output
      ∧ vm.init_vm.chunk = Chunk.new
      ∧ vm.init_vm.ip = 0
      ∧ vm.init_vm.stack = [])
    ∧ (((do
          let r1 ← interpret 2000 VM.new srcC9a
          interpret 2000 r1.2 srcC9b) :
            Except String (InterpretResult × VM)).toOption.map
        (fun r => (r.1, r.2.output, mapGet r.2.globals "x"))
        = some (InterpretResult.Ok, "\r1\n", some (Value.Number 1))) := by
  refine ⟨fun vm => ⟨rfl, rfl, rfl, rfl, rfl, rfl⟩, ?_⟩
  decide!

/-- Claim C10 (confirmed).  With the trace flag set, executing the Print
opcode leaves the operand stack and the output untouched; with the flag
clear it pops the top value and appends its rendering and a newline to the
output. -/
theorem claim_c10_print_trace_flag (vm : VM) (l : Line) (v : Value)
    (rest : List Value) (s : String)
    (hcode : vm.chunk.code.get? vm.ip = some (Op.Print, l))
    (hstack : vm.stack = v :: rest)
    (hrender : print_value vm.heap v = Except.ok s) :
    (∃ r, step true vm = .ok r ∧ r.state.stack = vm.stack
        ∧ r.state.output = vm.output)
    ∧ (∃ r, step false vm = .ok r ∧ r.state.stack = rest
        ∧ r.state.output = vm.output ++ s ++ "\n") := by
  constructor
  · refine ⟨endCheck { vm with ip := vm.ip + 1 }, ?_, ?_, ?_⟩
    · simp only [step]
      rw [hcode]
      rfl
    · rw [endCheck_state]
    · rw [endCheck_state]
  · refine ⟨endCheck { vm with ip := vm.ip + 1, stack := rest, output := vm.output ++ s ++ "\n" }, ?_, ?_, ?_⟩
    · simp only [step]
      rw [hcode]
      show stepPrint false { vm with ip := vm.ip + 1 } = _
      simp [stepPrint, VM.pop, hstack, except_bind_ok, hrender]
    · rw [endCheck_state]
    · rw [endCheck_state]

/-- Witness for claim C10 at a concrete one-instruction machine. -/
theorem claim_c10_witness :
    vmC10.chunk.code.get? vmC10.ip = some (Op.Print, line 1)
    ∧ vmC10.stack = Value.Number 5 :: []
    ∧ print_value vmC10.heap (Value.Number 5) = Except.ok "\r5"
    ∧ ((∃ r, step true vmC10 = .ok r ∧ r.state.stack = vmC10.stack
          ∧ r.state.output = vmC10.output)
      ∧ (∃ r, step false vmC10 = .ok r ∧ r.state.stack = []
          ∧ r.state.output = vmC10.output ++ "\r5" ++ "\n")) :=
  ⟨rfl, rfl, by decide,
   claim_c10_print_trace_flag vmC10 (line 1) (Value.Number 5) [] "\r5"
     rfl rfl (by decide)⟩

end LoxRust
